import Mathlib

/-!
Shallow embedding of the transaction construction / signing / broadcast
pipeline of the cyber-js client SDK (src/cyberclient.ts and
src/signingcyberclient.ts), together with theorems settling the frozen
claims about it.

External collaborators (the protobuf codec layer, the cosmjs helpers
`buildFeeTable`, `Int53.fromString`, `makeAuthInfoBytes`, `encodePubkey`,
`fromBase64`, the Amino converters and the RPC transport) are not part of
this repository's sources; following the specification they are modelled
at their interface boundary: deterministic abstract functions gathered in
an `Encoders` record, environments for the node, and spec-modelled
definitions where the spec states the contract.
-/

namespace CyberJs

/-- Byte strings are modelled as lists of naturals (each intended < 256). -/
abbrev Bytes := List Nat

/-- A coin: denomination and a string-encoded integer amount
(`Coin` from cosmjs, as used in `StdFee.amount` and message values). -/
structure Coin where
  denom : String
  amount : String
deriving DecidableEq, Repr

/-- `StdFee` from cosmjs/launchpad: fee amount plus string-encoded gas limit. -/
structure StdFee where
  amount : List Coin
  gas : String
deriving DecidableEq, Repr

/-- Payloads of the messages the embedded flows construct.  `opaque_` stands
for any other registered message value (the pipeline treats values
opaquely; only `convertResources` and `sendTokens` build concrete ones). -/
inductive MsgValue where
  | send (fromAddress toAddress : String) (amount : List Coin)
  | convert (agent : String) (amount : Coin) (resource : String) (endTime : Nat)
  | opaque_ (data : Bytes)
deriving DecidableEq, Repr

/-- `EncodeObject` from cosmjs/proto-signing: a type URL paired with a value. -/
structure EncodeObject where
  typeUrl : String
  value : MsgValue
deriving DecidableEq, Repr

/-- An account as listed by the external signer's `getAccounts()`. -/
structure SignerAccount where
  address : String
  pubkey : Bytes
deriving DecidableEq, Repr

/-- Chain account state decoded by `accountFromAny` (fields used by the
pipeline: `accountNumber` and `sequence`). -/
structure Account where
  address : String
  accountNumber : Nat
  sequence : Nat
deriving DecidableEq, Repr

/-- The direct-mode sign document produced by `makeSignDoc` from
cosmjs/proto-signing: it binds body bytes, auth-info bytes, chain id and
account number (the sequence is bound inside the auth-info bytes). -/
structure SignDoc where
  bodyBytes : Bytes
  authInfoBytes : Bytes
  chainId : String
  accountNumber : Nat
deriving DecidableEq, Repr

/-- Amino messages are opaque JSON objects to this pipeline; modelled as
opaque byte strings produced/consumed by the registry's converters. -/
abbrev AminoMsg := Bytes

/-- The legacy Amino sign document produced by `makeSignDocAmino`
(cosmjs/launchpad `makeSignDoc`): it binds the Amino messages, the fee, the
chain id, the memo, the account number and the sequence. -/
structure StdSignDoc where
  msgs : List AminoMsg
  fee : StdFee
  chainId : String
  memo : String
  accountNumber : Nat
  sequence : Nat
deriving DecidableEq, Repr

/-- The `signed` part of a direct signer's response: the body and auth-info
bytes the signer actually signed. -/
structure DirectSigned where
  bodyBytes : Bytes
  authInfoBytes : Bytes
deriving DecidableEq, Repr

/-- A direct signer's `signDirect` response: base64 signature plus the
signed document parts echoed back. -/
structure DirectSignResponse where
  signature : String
  signed : DirectSigned
deriving DecidableEq, Repr

/-- The `signed` part of an Amino signer's response: possibly-normalized
msgs, memo, fee and a string-encoded sequence. -/
structure AminoSigned where
  msgs : List AminoMsg
  memo : String
  fee : StdFee
  sequence : String
deriving DecidableEq, Repr

/-- An Amino signer's `signAmino` response. -/
structure AminoSignResponse where
  signature : String
  signed : AminoSigned
deriving DecidableEq, Repr

/-- The external `OfflineSigner`: capability-polymorphic over direct
(protobuf) and Amino signing, each with its account list and signing
function.  `isOfflineDirectSigner` in the source tests which capability is
present; here that test is the constructor. -/
inductive OfflineSigner where
  | direct (accounts : List SignerAccount) (signDirect : String → SignDoc → DirectSignResponse)
  | amino (accounts : List SignerAccount) (signAmino : String → StdSignDoc → AminoSignResponse)

/-- `signer.getAccounts()`. -/
def OfflineSigner.getAccounts : OfflineSigner → List SignerAccount
  | .direct accounts _ => accounts
  | .amino accounts _ => accounts

/-- `isOfflineDirectSigner(signer)` from cosmjs/proto-signing. -/
def isOfflineDirectSigner : OfflineSigner → Bool
  | .direct _ _ => true
  | .amino _ _ => false

/-- The signing-mode tag (`SignMode` from the cosmos tx signing protobuf).
`direct` is `SIGN_MODE_DIRECT`, the default `makeAuthInfoBytes` uses when
no mode is passed; `legacyAminoJson` is `SIGN_MODE_LEGACY_AMINO_JSON`. -/
inductive SignMode where
  | direct
  | legacyAminoJson
deriving DecidableEq, Repr

/-- The raw transaction envelope (`TxRaw`): final body bytes, auth-info
bytes, and the list of raw signature byte strings. -/
structure TxRaw where
  bodyBytes : Bytes
  authInfoBytes : Bytes
  signatures : List Bytes
deriving DecidableEq, Repr

/-- Error taxonomy of the pipeline (the source throws `Error`s; the spec
names them).  `transportError` carries the propagated error text. -/
inductive Err where
  | signerAccountMismatch
  | accountNotFound
  | transportError (msg : String)
  | invalidFee
  | chainIdEmpty
deriving DecidableEq, Repr

/-! ## Hex rendering (`toHex(...)`, then `.toUpperCase()`)

`toHex` from cosmjs/encoding renders each byte as two lowercase hex digits;
`broadcastTx` then upper-cases the whole string. -/

/-- One lowercase hexadecimal digit for a value < 16. -/
def hexChar (n : Nat) : Char :=
  if n < 10 then Char.ofNat (48 + n) else Char.ofNat (87 + n)

/-- `toHex` from cosmjs/encoding: two lowercase hex digits per byte. -/
def toHex (bytes : Bytes) : String :=
  String.mk (bytes.flatMap fun b => [hexChar (b / 16 % 16), hexChar (b % 16)])

/-- JavaScript's `String.prototype.toUpperCase` restricted to the ASCII
output of `toHex`: upper-case every character. -/
def toUpperCase (s : String) : String :=
  String.mk (s.data.map Char.toUpper)

/-- Is `c` an uppercase hexadecimal digit? -/
def isUpperHexChar (c : Char) : Bool :=
  c.isDigit || (decide ('A' ≤ c) && decide (c ≤ 'F'))

/-! ## Case-insensitive substring test (the `/rpc error: code = NotFound/i`
regular-expression test in `getAccount`) -/

/-- Does `hay` start with `pat` (character lists)? -/
def listStartsWith : List Char → List Char → Bool
  | [], _ => true
  | _ :: _, [] => false
  | p :: ps, h :: hs => p == h && listStartsWith ps hs

/-- Does `hay` contain `pat` as a contiguous run (character lists)? -/
def listContainsSub (pat : List Char) : List Char → Bool
  | [] => listStartsWith pat []
  | h :: hs => listStartsWith pat (h :: hs) || listContainsSub pat hs

/-- Case-insensitive containment test on strings: the model of testing the
regular expression `/pat/i` against `hay`. -/
def icontains (hay pat : String) : Bool :=
  listContainsSub (pat.data.map Char.toLower) (hay.data.map Char.toLower)

/-- The pattern of the regular expression in `getAccount`. -/
def notFoundPattern : String := "rpc error: code = NotFound"

/-! ## Integer parsing (`Int53.fromString`)

Modelled from the spec: `Int53.fromString` belongs to the external
`@cosmjs/math` package; the spec's contract for this use site is "Compute
integer gas limit from the Fee Descriptor's gas string (fails with
`InvalidFee` if not a valid non-negative integer literal)". -/

/-- The value of a decimal digit string. -/
def decimalValue (s : String) : Nat :=
  s.data.foldl (fun n c => n * 10 + (c.toNat - 48)) 0

/-- Modelled from the spec: parsing a gas/sequence string as a non-negative
integer literal; `none` when the string is not a valid non-negative integer
literal (`Int53.fromString` throwing). -/
def parseNonNegInt (s : String) : Option Nat :=
  if s.length ≠ 0 && s.data.all (fun c => c.isDigit) then some (decimalValue s) else none

/-! ## The node / query-layer environment

The RPC transport and the auth query extension are external collaborators;
they are modelled as an environment the client functions read.  An
`Except.error e` models a thrown transport error whose `String(error)`
rendering is `e`. -/

/-- The external boundary the client reads: the auth account query (already
decoded by `accountFromAny`, which is codec-layer) and the node status's
`nodeInfo.network` field. -/
structure ChainEnv where
  authAccount : String → Except String (Option Account)
  statusNetwork : Except String String

/-- Mutable client state: the lazily-initialized chain-id cache
(`this.chainId`), absent until the first successful fetch. -/
structure ClientState where
  chainId : Option String
deriving DecidableEq, Repr

/-! ## CyberClient.getAccount, CyberClient.getChainId, CyberClient.broadcastTx -/

/-- `CyberClient.getAccount`: query the auth account; convert an error
matching `/rpc error: code = NotFound/i` into `null` (here `none`);
propagate every other error unchanged. -/
def getAccount (env : ChainEnv) (searchAddress : String) : Except String (Option Account) :=
  match env.authAccount searchAddress with
  | .ok account => .ok account
  | .error e => if icontains e notFoundPattern then .ok none else .error e

/-- `CyberClient.getChainId`: if the cache is unset (or empty, which the
source's falsiness test also covers), fetch `status().nodeInfo.network`,
reject an empty chain id, store it, and return it; otherwise return the
cached value.  The `Bool` in the result records whether a network fetch
happened. -/
def getChainId (env : ChainEnv) (s : ClientState) :
    Except String (String × ClientState × Bool) :=
  if s.chainId.getD "" = "" then
    match env.statusNetwork with
    | .error e => .error e
    | .ok chainId =>
      if chainId = "" then .error "Chain ID must not be empty"
      else .ok (chainId, { s with chainId := some chainId }, true)
  else
    .ok (s.chainId.getD "", s, false)

/-- The synchronous broadcast response of the node
(`broadcastTxSync({tx})`). -/
structure BroadcastTxSyncResponse where
  code : Nat
  log : String
  hash : Bytes
  gasUsed : Nat
  gasWanted : Nat
deriving DecidableEq, Repr

/-- The structured result `broadcastTx` returns (`DeliverTxResponse`). -/
structure DeliverTxResponse where
  code : Nat
  height : Nat
  rawLog : String
  transactionHash : String
  gasUsed : Nat
  gasWanted : Nat
deriving DecidableEq, Repr

/-- `CyberClient.broadcastTx`: submit the bytes, then repackage the node's
synchronous response into a structured result — code and log verbatim,
height the constant 0, the transaction id as uppercase hex of the node's
hash, gas figures verbatim.  It is a total function: a non-zero code is
returned, not thrown. -/
def broadcastTx (node : Bytes → BroadcastTxSyncResponse) (tx : Bytes) : DeliverTxResponse :=
  let broadcasted := node tx
  { code := broadcasted.code
    height := 0
    rawLog := broadcasted.log
    transactionHash := toUpperCase (toHex broadcasted.hash)
    gasUsed := broadcasted.gasUsed
    gasWanted := broadcasted.gasWanted }

/-! ## Fee table

`buildFeeTable` and `GasPrice` come from the external `@cosmjs/launchpad`
package; the spec states their contract (§4.1): for each operation kind,
gas limit = override if supplied else built-in default; fee amount =
ceiling(gas limit × gas price) in the price's denomination as an integer
coin amount.  The source's open string-keyed fee map is modelled, as the
spec directs, as a closed enumeration of the operation kinds the client
defines. -/

/-- A gas price: denomination and a (decimal) price per unit of gas,
modelled as a rational. -/
structure GasPrice where
  denom : String
  amount : ℚ
deriving DecidableEq, Repr

/-- The operation kinds of the client's fee table (`CyberFeeTable`). -/
inductive FeeKind where
  | cyberlink
  | convert
  | send
  | createRoute
  | editRoute
  | deleteRoute
  | editRouteAlias
deriving DecidableEq, Repr

/-- The built-in default gas limits (`defaultGasLimits` in the source). -/
def defaultGasLimits : FeeKind → Nat
  | .cyberlink => 256000
  | .convert => 128000
  | .send => 128000
  | .createRoute => 100000
  | .editRoute => 100000
  | .deleteRoute => 100000
  | .editRouteAlias => 100000

/-- The built-in default gas price, `GasPrice.fromString("0.001nick")`. -/
def defaultGasPrice : GasPrice := { denom := "nick", amount := (1 : ℚ) / 1000 }

/-- Modelled from the spec: the fee for one gas limit at one gas price —
amount = ceiling(gas limit × gas price), an integer-valued coin amount in
the price's denomination; `gas` the string-encoded limit. -/
def calculateFee (gasLimit : Nat) (gasPrice : GasPrice) : StdFee :=
  { amount := [{ denom := gasPrice.denom
                 amount := toString ⌈(gasLimit : ℚ) * gasPrice.amount⌉ }]
    gas := toString gasLimit }

/-- Modelled from the spec: `buildFeeTable` over the closed kind
enumeration — per kind, the override when supplied else the default, then
`calculateFee`. -/
def buildFeeTable (gasPrice : GasPrice) (defaults : FeeKind → Nat)
    (gasLimits : FeeKind → Option Nat) : FeeKind → StdFee :=
  fun kind => calculateFee ((gasLimits kind).getD (defaults kind)) gasPrice

/-- The construction-time options the fee table reads
(`SigningCyberClientOptions`; the registry/amino-types/bech32 options do
not affect the fee table and are carried by `Encoders` instead). -/
structure SigningCyberClientOptions where
  gasPrice : Option GasPrice
  gasLimits : Option (FeeKind → Option Nat)

/-- The fee table the `SigningCyberClient` constructor computes:
`buildFeeTable(gasPrice, defaultGasLimits, gasLimits)` with
`gasPrice = options.gasPrice ?? defaultGasPrice` and the caller's
`options.gasLimits` as the overrides (when absent the source destructures
the built-in map itself into the override slot, which yields the same
table). -/
def clientFees (options : SigningCyberClientOptions) : FeeKind → StdFee :=
  buildFeeTable (options.gasPrice.getD defaultGasPrice) defaultGasLimits
    (options.gasLimits.getD (fun kind => some (defaultGasLimits kind)))

/-! ## The signing pipeline (`SigningCyberClient.signAndBroadcast`)

The deterministic external codec functions the pipeline calls are gathered
in an `Encoders` record: the registry's `TxBody` encoding, pubkey
encoding, `makeAuthInfoBytes`, base64 decoding and the Amino converters.
The spec specifies them only as deterministic functions at the boundary
(§2, §6), so the theorems quantify over them. -/

/-- The external deterministic codec boundary. -/
structure Encoders where
  encodePubkey : Bytes → Bytes
  encodeTxBody : List EncodeObject → String → Bytes
  makeAuthInfoBytes : List Bytes → List Coin → Nat → Nat → SignMode → Bytes
  fromBase64 : String → Bytes
  toAmino : EncodeObject → AminoMsg
  fromAmino : AminoMsg → EncodeObject

/-- The direct-mode sign document the pipeline shows the signer, as a
function of the seven signing inputs (pubkey standing for the signer
address's key): body bytes from (messages, memo), auth-info bytes from
(pubkey, fee amount, gas limit, sequence) with the implicit default
`SIGN_MODE_DIRECT`, plus chain id and account number. -/
def directSignDocOf (E : Encoders) (pubkey : Bytes) (messages : List EncodeObject)
    (fee : StdFee) (memo chainId : String) (accountNumber sequence gasLimit : Nat) :
    SignDoc :=
  { bodyBytes := E.encodeTxBody messages memo
    authInfoBytes := E.makeAuthInfoBytes [pubkey] fee.amount gasLimit sequence .direct
    chainId := chainId
    accountNumber := accountNumber }

/-- The Amino-mode sign document the pipeline shows the signer
(`makeSignDocAmino(msgs, fee, chainId, memo, accountNumber, sequence)`
with `msgs = messages.map(toAmino)`). -/
def aminoSignDocOf (E : Encoders) (messages : List EncodeObject) (fee : StdFee)
    (memo chainId : String) (accountNumber sequence : Nat) : StdSignDoc :=
  { msgs := messages.map E.toAmino
    fee := fee
    chainId := chainId
    memo := memo
    accountNumber := accountNumber
    sequence := sequence }

/-- `SigningCyberClient.signAndBroadcast` up to (and excluding) the final
`broadcastTx` call: it returns the possibly-updated client state (the
chain-id cache is written by the embedded `getChainId` call) and either an
error or the `TxRaw` envelope handed to broadcast.

Step by step, following the source: find the signer account for the
address (else `signerAccountMismatch`); encode its pubkey; fetch the chain
account via `getAccount` (null ⇒ `accountNotFound`, other errors
propagated); read `accountNumber`/`sequence` from it; resolve the chain id
via `getChainId`; encode the body bytes from (messages, memo); parse the
fee's gas string (failure ⇒ `invalidFee`); then branch on
`isOfflineDirectSigner`:
direct — build auth-info bytes and the sign doc, call `signDirect`, and
assemble `TxRaw` from the signer-returned body/auth-info bytes and the
base64-decoded signature;
Amino — convert the messages, build the Amino sign doc, call `signAmino`,
re-encode body bytes from the signer-returned msgs/memo, parse the
signer-returned gas and sequence, rebuild auth-info bytes from the
signer-returned fee/sequence with `SIGN_MODE_LEGACY_AMINO_JSON`, and
assemble `TxRaw` the same way. -/
def signAndBroadcastEnvelope (E : Encoders) (signer : OfflineSigner) (env : ChainEnv)
    (s : ClientState) (signerAddress : String) (messages : List EncodeObject)
    (fee : StdFee) (memo : String) : ClientState × Except Err TxRaw :=
  match signer.getAccounts.find? (fun account => account.address == signerAddress) with
  | none => (s, .error .signerAccountMismatch)
  | some accountFromSigner =>
    let pubkey := E.encodePubkey accountFromSigner.pubkey
    match getAccount env signerAddress with
    | .error e => (s, .error (.transportError e))
    | .ok none => (s, .error .accountNotFound)
    | .ok (some accountFromChain) =>
      let accountNumber := accountFromChain.accountNumber
      let sequence := accountFromChain.sequence
      match getChainId env s with
      | .error e => (s, .error (.transportError e))
      | .ok (chainId, s1, _) =>
        match parseNonNegInt fee.gas with
        | none => (s1, .error .invalidFee)
        | some gasLimit =>
          match signer with
          | .direct _ signDirect =>
            let signDoc := directSignDocOf E pubkey messages fee memo chainId
              accountNumber sequence gasLimit
            let resp := signDirect signerAddress signDoc
            (s1, .ok { bodyBytes := resp.signed.bodyBytes
                       authInfoBytes := resp.signed.authInfoBytes
                       signatures := [E.fromBase64 resp.signature] })
          | .amino _ signAmino =>
            let signDoc := aminoSignDocOf E messages fee memo chainId
              accountNumber sequence
            let resp := signAmino signerAddress signDoc
            let signedTxBodyBytes :=
              E.encodeTxBody (resp.signed.msgs.map E.fromAmino) resp.signed.memo
            match parseNonNegInt resp.signed.fee.gas, parseNonNegInt resp.signed.sequence with
            | some signedGasLimit, some signedSequence =>
              (s1, .ok { bodyBytes := signedTxBodyBytes
                         authInfoBytes := E.makeAuthInfoBytes [pubkey]
                           resp.signed.fee.amount signedGasLimit signedSequence
                           .legacyAminoJson
                         signatures := [E.fromBase64 resp.signature] })
            | _, _ => (s1, .error .invalidFee)

/-- `signAndBroadcast` including the final broadcast: encode the envelope
(`TxRaw.encode(...).finish()`, an injective codec-layer function carried
as a parameter) and hand it to `broadcastTx`. -/
def signAndBroadcast (E : Encoders) (txRawEncode : TxRaw → Bytes)
    (node : Bytes → BroadcastTxSyncResponse) (signer : OfflineSigner) (env : ChainEnv)
    (s : ClientState) (signerAddress : String) (messages : List EncodeObject)
    (fee : StdFee) (memo : String) : ClientState × Except Err DeliverTxResponse :=
  match signAndBroadcastEnvelope E signer env s signerAddress messages fee memo with
  | (s1, .error e) => (s1, .error e)
  | (s1, .ok txRaw) => (s1, .ok (broadcastTx node (txRawEncode txRaw)))

/-! ## Per-operation helpers used by the claims -/

/-- The `MsgConvert` message `convertResources` builds: the `endTime`
field is `Long.fromString(new Uint53(10000).toString())`, i.e. the
constant 10000; the `time` parameter of `convertResources` is accepted but
never read. -/
def convertResourcesMsg (senderAddress : String) (amount : Coin) (resource : String)
    (_time : Nat) : EncodeObject :=
  { typeUrl := "/cyber.resources.v1beta1.MsgConvert"
    value := .convert senderAddress amount resource 10000 }

/-- `SigningCyberClient.convertResources` up to the broadcast envelope:
sign and broadcast the single `MsgConvert` built by `convertResourcesMsg`
with the construction-time `convert` fee. -/
def convertResources (E : Encoders) (options : SigningCyberClientOptions)
    (signer : OfflineSigner) (env : ChainEnv) (s : ClientState)
    (senderAddress : String) (amount : Coin) (resource : String) (time : Nat)
    (memo : String) : ClientState × Except Err TxRaw :=
  signAndBroadcastEnvelope E signer env s senderAddress
    [convertResourcesMsg senderAddress amount resource time]
    (clientFees options .convert) memo

/-! ## Concrete instances (used to witness the conditional theorems) -/

/-- A concrete signer pubkey. -/
def pkW : Bytes := [1, 2, 3]

/-- A concrete signer account. -/
def saccW : SignerAccount := { address := "addr1", pubkey := pkW }

/-- A concrete signer account list. -/
def accsW : List SignerAccount := [saccW]

/-- A concrete chain account. -/
def acctW : Account := { address := "addr1", accountNumber := 7, sequence := 3 }

/-- A concrete chain environment: `addr1` exists, any other address fails
with an RPC NotFound error. -/
def envW : ChainEnv :=
  { authAccount := fun a =>
      if a = "addr1" then .ok (some acctW)
      else .error "rpc error: code = NotFound, account does not exist"
    statusNetwork := .ok "test-1" }

/-- A chain environment whose auth query fails with a non-NotFound error. -/
def envFailW : ChainEnv :=
  { authAccount := fun _ => .error "connection refused"
    statusNetwork := .ok "test-1" }

/-- A concrete instance of the deterministic codec boundary. -/
def encW : Encoders :=
  { encodePubkey := fun b => 0 :: b
    encodeTxBody := fun msgs memo => [msgs.length, memo.length]
    makeAuthInfoBytes := fun pks amt g sq m =>
      [pks.length, amt.length, g, sq, match m with | .direct => 0 | .legacyAminoJson => 1]
    fromBase64 := fun s => [s.length]
    toAmino := fun e => [e.typeUrl.length]
    fromAmino := fun a => { typeUrl := "t", value := .opaque_ a } }

/-- A concrete direct signing function (prepends a marker to each part so
that signer-returned bytes differ from the locally built ones). -/
def sdW : String → SignDoc → DirectSignResponse :=
  fun _ doc =>
    { signature := "c2ln"
      signed := { bodyBytes := 9 :: doc.bodyBytes, authInfoBytes := 8 :: doc.authInfoBytes } }

/-- A concrete Amino signing function (echoes the document back). -/
def saW : String → StdSignDoc → AminoSignResponse :=
  fun _ doc =>
    { signature := "c2ln"
      signed := { msgs := doc.msgs, memo := doc.memo, fee := doc.fee
                  sequence := toString doc.sequence } }

/-- A concrete fee descriptor. -/
def feeW : StdFee := { amount := [{ denom := "nick", amount := "128" }], gas := "128000" }

/-- A concrete override table: only the `convert` kind is overridden. -/
def ovW : FeeKind → Option Nat := fun k => if k = .convert then some 64000 else none

/-- Concrete client options supplying `ovW` as the gas-limit overrides. -/
def optionsW : SigningCyberClientOptions := { gasPrice := none, gasLimits := some ovW }

/-- A concrete broadcast node response map. -/
def nodeW : Bytes → BroadcastTxSyncResponse :=
  fun tx => { code := 5, log := "out of gas", hash := [171, 1], gasUsed := 9, gasWanted := tx.length }

/-- A signer account list for the not-yet-funded address `addr2`. -/
def accsW2 : List SignerAccount := [{ address := "addr2", pubkey := pkW }]

/-- A fee descriptor whose gas string is not a valid non-negative integer
literal. -/
def badFeeW : StdFee := { amount := [], gas := "12x" }

/-- The direct sign document the pipeline builds for the concrete inputs
(`addr1`, no messages, `feeW`, empty memo) in environment `envW`. -/
def docW : SignDoc :=
  { bodyBytes := encW.encodeTxBody [] ""
    authInfoBytes := encW.makeAuthInfoBytes [encW.encodePubkey saccW.pubkey] feeW.amount
      128000 acctW.sequence .direct
    chainId := "test-1"
    accountNumber := acctW.accountNumber }

/-- The concrete direct signer's response to `docW`. -/
def respW : DirectSignResponse := sdW "addr1" docW

/-- The concrete Amino signer's response to the corresponding Amino sign
document. -/
def resp2W : AminoSignResponse :=
  saW "addr1" (aminoSignDocOf encW [] feeW "" "test-1" acctW.accountNumber acctW.sequence)

/-! ## Helper lemmas -/

/-- Upper-casing a lowercase hex digit of a value < 16 lands in the
uppercase hexadecimal alphabet. -/
theorem hexChar_toUpper_upperHex : ∀ n < 16, isUpperHexChar (Char.toUpper (hexChar n)) = true := by
  decide

/-- Every character of the upper-cased hex rendering of a byte string is
an uppercase hexadecimal digit. -/
theorem toUpperCase_toHex_all (bytes : Bytes) :
    (toUpperCase (toHex bytes)).data.all isUpperHexChar = true := by
  induction bytes with
  | nil => rfl
  | cons b bs ih =>
    have h1 := hexChar_toUpper_upperHex (b / 16 % 16) (Nat.mod_lt _ (by norm_num))
    have h2 := hexChar_toUpper_upperHex (b % 16) (Nat.mod_lt _ (by norm_num))
    simpa [toUpperCase, toHex, h1, h2] using ih

/-- The digit fold used by `decimalValue` computes the standard base-10
value of the digit list. -/
theorem foldl_digits_eq_ofDigits (l : List Char) :
    l.foldl (fun n c => n * 10 + (c.toNat - 48)) 0
      = Nat.ofDigits 10 ((l.map fun c => c.toNat - 48)).reverse := by
  induction l using List.reverseRecOn with
  | nil => simp [Nat.ofDigits]
  | append_singleton l c ih =>
    simp [List.foldl_append, Nat.ofDigits_cons, ih]
    ring

/-- Reduction of the signing pipeline in the direct-signer case: with the
signer account found, the chain account resolved, the chain id resolved
and the gas string parsed, the call returns the envelope built from the
signer's response to exactly the locally built sign document. -/
theorem sab_direct_eq (E : Encoders) (accounts : List SignerAccount)
    (sd : String → SignDoc → DirectSignResponse) (env : ChainEnv) (st : ClientState)
    (addr : String) (msgs : List EncodeObject) (fee : StdFee) (memo : String)
    (sacc : SignerAccount) (acct : Account) (cid : String) (s1 : ClientState) (b : Bool)
    (gasLimit : Nat) (resp : DirectSignResponse)
    (hfind : accounts.find? (fun account => account.address == addr) = some sacc)
    (hacct : getAccount env addr = .ok (some acct))
    (hcid : getChainId env st = .ok (cid, s1, b))
    (hgas : parseNonNegInt fee.gas = some gasLimit)
    (hresp : resp = sd addr (directSignDocOf E (E.encodePubkey sacc.pubkey) msgs fee memo
      cid acct.accountNumber acct.sequence gasLimit)) :
    signAndBroadcastEnvelope E (.direct accounts sd) env st addr msgs fee memo
      = (s1, .ok { bodyBytes := resp.signed.bodyBytes
                   authInfoBytes := resp.signed.authInfoBytes
                   signatures := [E.fromBase64 resp.signature] }) := by
  subst hresp
  simp only [signAndBroadcastEnvelope, OfflineSigner.getAccounts, hfind, hacct, hcid, hgas]

/-- Reduction of the signing pipeline in the Amino-signer case: the
envelope is rebuilt entirely from the signer's response to the locally
built Amino sign document — re-encoded body bytes from the signer's msgs
and memo, auth-info bytes from the signer's fee and sequence with the
legacy-Amino sign mode. -/
theorem sab_amino_eq (E : Encoders) (accounts : List SignerAccount)
    (sa : String → StdSignDoc → AminoSignResponse) (env : ChainEnv) (st : ClientState)
    (addr : String) (msgs : List EncodeObject) (fee : StdFee) (memo : String)
    (sacc : SignerAccount) (acct : Account) (cid : String) (s1 : ClientState) (b : Bool)
    (gasLimit signedGasLimit signedSequence : Nat) (resp : AminoSignResponse)
    (hfind : accounts.find? (fun account => account.address == addr) = some sacc)
    (hacct : getAccount env addr = .ok (some acct))
    (hcid : getChainId env st = .ok (cid, s1, b))
    (hgas : parseNonNegInt fee.gas = some gasLimit)
    (hresp : resp = sa addr (aminoSignDocOf E msgs fee memo cid acct.accountNumber
      acct.sequence))
    (hsg : parseNonNegInt resp.signed.fee.gas = some signedGasLimit)
    (hss : parseNonNegInt resp.signed.sequence = some signedSequence) :
    signAndBroadcastEnvelope E (.amino accounts sa) env st addr msgs fee memo
      = (s1, .ok { bodyBytes := E.encodeTxBody (resp.signed.msgs.map E.fromAmino)
                     resp.signed.memo
                   authInfoBytes := E.makeAuthInfoBytes [E.encodePubkey sacc.pubkey]
                     resp.signed.fee.amount signedGasLimit signedSequence .legacyAminoJson
                   signatures := [E.fromBase64 resp.signature] }) := by
  subst hresp
  simp only [signAndBroadcastEnvelope, OfflineSigner.getAccounts, hfind, hacct, hcid, hgas,
    hsg, hss]

/-- `parseNonNegInt` fails exactly on the strings that are not non-empty
strings of decimal digits. -/
theorem parseNonNegInt_none_iff (s : String) :
    parseNonNegInt s = none ↔ ¬ (s.data ≠ [] ∧ ∀ c ∈ s.data, c.isDigit = true) := by
  have hcond : (decide (s.length ≠ 0) && s.data.all fun c => c.isDigit) = true
      ↔ (s.data ≠ [] ∧ ∀ c ∈ s.data, c.isDigit = true) := by
    rw [Bool.and_eq_true, decide_eq_true_eq, List.all_eq_true,
      show s.length = s.data.length from rfl, ne_eq, List.length_eq_zero]
  unfold parseNonNegInt
  split
  case isTrue h => exact iff_of_false (by simp) (not_not_intro (hcond.mp h))
  case isFalse h => exact iff_of_true rfl (fun hp => h (hcond.mpr hp))

/-! ## Claim theorems -/

/-- C10: For every node response, the result returned by `broadcastTx` has
its height field equal to the constant 0, regardless of anything the node
reports; the broadcast result never carries a block-inclusion height. -/
theorem broadcastTx_height_always_zero (node : Bytes → BroadcastTxSyncResponse) (tx : Bytes) :
    (broadcastTx node tx).height = 0 := rfl

/-- C5: For every submitted raw transaction, `broadcastTx` returns a
structured result carrying the node's status code, the log string, gas
wanted/used, and the transaction identifier rendered as uppercase
hexadecimal of the node's hash; a non-zero code is returned in this
structured result (the function is total into `DeliverTxResponse` — no
exception path exists), and every character of the identifier is an
uppercase hexadecimal digit. -/
theorem broadcastTx_structured_result (node : Bytes → BroadcastTxSyncResponse) (tx : Bytes) :
    broadcastTx node tx =
      { code := (node tx).code
        height := 0
        rawLog := (node tx).log
        transactionHash := toUpperCase (toHex (node tx).hash)
        gasUsed := (node tx).gasUsed
        gasWanted := (node tx).gasWanted } ∧
    (broadcastTx node tx).transactionHash.data.all isUpperHexChar = true :=
  ⟨rfl, toUpperCase_toHex_all (node tx).hash⟩

/-- C9: For every call to `convertResources(senderAddress, amount,
resource, time, memo)`, the `MsgConvert` placed into the transaction has
`endTime` equal to the constant 10000; the `time` parameter has no
influence on the constructed message or the resulting transaction — two
calls differing only in `time` build identical messages and identical
transactions. -/
theorem convertResources_endTime_constant (E : Encoders)
    (options : SigningCyberClientOptions) (signer : OfflineSigner) (env : ChainEnv)
    (st : ClientState) (senderAddress : String) (amount : Coin) (resource : String)
    (time₁ time₂ : Nat) (memo : String) :
    (convertResourcesMsg senderAddress amount resource time₁).value
        = .convert senderAddress amount resource 10000 ∧
    convertResourcesMsg senderAddress amount resource time₁
        = convertResourcesMsg senderAddress amount resource time₂ ∧
    convertResources E options signer env st senderAddress amount resource time₁ memo
        = convertResources E options signer env st senderAddress amount resource time₂ memo :=
  ⟨rfl, rfl, rfl⟩

/-- C1: For every `signAndBroadcast` call in which the external signer
supports direct (protobuf) signing, the direct branch is taken (never the
Amino branch in the same call — the Amino signing function does not occur
in the result); the sign document handed to the signer binds exactly the
tuple (locally built body bytes of (messages, memo), auth-info bytes built
from the pubkey, the fee amount, the gas limit and the sequence, the chain
id, the account number); and the final raw transaction envelope contains
the signer-returned signed bodyBytes and signed authInfoBytes together
with the base64-decoded signature, never the locally built pre-signing
bytes. -/
theorem signAndBroadcast_direct_mode (E : Encoders) (accounts : List SignerAccount)
    (sd : String → SignDoc → DirectSignResponse) (env : ChainEnv) (st : ClientState)
    (addr : String) (msgs : List EncodeObject) (fee : StdFee) (memo : String)
    (sacc : SignerAccount) (acct : Account) (cid : String) (s1 : ClientState) (b : Bool)
    (gasLimit : Nat) (resp : DirectSignResponse)
    (hfind : accounts.find? (fun account => account.address == addr) = some sacc)
    (hacct : getAccount env addr = .ok (some acct))
    (hcid : getChainId env st = .ok (cid, s1, b))
    (hgas : parseNonNegInt fee.gas = some gasLimit)
    (hresp : resp = sd addr
      { bodyBytes := E.encodeTxBody msgs memo
        authInfoBytes := E.makeAuthInfoBytes [E.encodePubkey sacc.pubkey] fee.amount
          gasLimit acct.sequence .direct
        chainId := cid
        accountNumber := acct.accountNumber }) :
    isOfflineDirectSigner (.direct accounts sd) = true ∧
    signAndBroadcastEnvelope E (.direct accounts sd) env st addr msgs fee memo
      = (s1, .ok { bodyBytes := resp.signed.bodyBytes
                   authInfoBytes := resp.signed.authInfoBytes
                   signatures := [E.fromBase64 resp.signature] }) :=
  ⟨rfl, sab_direct_eq E accounts sd env st addr msgs fee memo sacc acct cid s1 b gasLimit
    resp hfind hacct hcid hgas hresp⟩

/-- C2: For every `signAndBroadcast` call in which the external signer
does not support direct signing, the Amino branch is taken: the envelope's
body bytes are re-encoded from the signer-returned msgs (converted back
from Amino form via the registry) and the signer-returned memo, and the
auth-info bytes are rebuilt from the signer-returned fee and sequence with
the legacy-Amino signing-mode tag (distinct from direct mode's implicit
default), never from the pre-signing local messages, memo, fee or
sequence. -/
theorem signAndBroadcast_amino_mode (E : Encoders) (accounts : List SignerAccount)
    (sa : String → StdSignDoc → AminoSignResponse) (env : ChainEnv) (st : ClientState)
    (addr : String) (msgs : List EncodeObject) (fee : StdFee) (memo : String)
    (sacc : SignerAccount) (acct : Account) (cid : String) (s1 : ClientState) (b : Bool)
    (gasLimit signedGasLimit signedSequence : Nat) (resp : AminoSignResponse)
    (hfind : accounts.find? (fun account => account.address == addr) = some sacc)
    (hacct : getAccount env addr = .ok (some acct))
    (hcid : getChainId env st = .ok (cid, s1, b))
    (hgas : parseNonNegInt fee.gas = some gasLimit)
    (hresp : resp = sa addr
      { msgs := msgs.map E.toAmino
        fee := fee
        chainId := cid
        memo := memo
        accountNumber := acct.accountNumber
        sequence := acct.sequence })
    (hsg : parseNonNegInt resp.signed.fee.gas = some signedGasLimit)
    (hss : parseNonNegInt resp.signed.sequence = some signedSequence) :
    isOfflineDirectSigner (.amino accounts sa) = false ∧
    SignMode.legacyAminoJson ≠ SignMode.direct ∧
    signAndBroadcastEnvelope E (.amino accounts sa) env st addr msgs fee memo
      = (s1, .ok { bodyBytes := E.encodeTxBody (resp.signed.msgs.map E.fromAmino)
                     resp.signed.memo
                   authInfoBytes := E.makeAuthInfoBytes [E.encodePubkey sacc.pubkey]
                     resp.signed.fee.amount signedGasLimit signedSequence .legacyAminoJson
                   signatures := [E.fromBase64 resp.signature] }) :=
  ⟨rfl, by simp, sab_amino_eq E accounts sa env st addr msgs fee memo sacc acct cid s1 b
    gasLimit signedGasLimit signedSequence resp hfind hacct hcid hgas hresp hsg hss⟩

/-- C6: In every `signAndBroadcast` call, computing the integer gas limit
from the Fee Descriptor's gas string fails with the invalid-fee error if
and only if that string is not a valid non-negative integer literal (a
non-empty string of decimal digits); for a valid non-negative integer
literal the computed gas limit equals the literal's base-10 value.  The
whole-call iff is stated on the pipeline with a direct signer (with the
preceding steps succeeding); the parse itself precedes the mode branch in
the source. -/
theorem gasLimit_parse_correct (E : Encoders) (accounts : List SignerAccount)
    (sd : String → SignDoc → DirectSignResponse) (env : ChainEnv) (st : ClientState)
    (addr : String) (msgs : List EncodeObject) (fee : StdFee) (memo : String)
    (sacc : SignerAccount) (acct : Account) (cid : String) (s1 : ClientState) (b : Bool)
    (hfind : accounts.find? (fun account => account.address == addr) = some sacc)
    (hacct : getAccount env addr = .ok (some acct))
    (hcid : getChainId env st = .ok (cid, s1, b)) :
    (parseNonNegInt fee.gas = none ↔
      ¬ (fee.gas.data ≠ [] ∧ ∀ c ∈ fee.gas.data, c.isDigit = true)) ∧
    (∀ n, parseNonNegInt fee.gas = some n →
      n = Nat.ofDigits 10 ((fee.gas.data.map fun c => c.toNat - 48)).reverse) ∧
    ((signAndBroadcastEnvelope E (.direct accounts sd) env st addr msgs fee memo).2
        = .error .invalidFee ↔ parseNonNegInt fee.gas = none) := by
  refine ⟨parseNonNegInt_none_iff fee.gas, ?_, ?_⟩
  · intro n hn
    unfold parseNonNegInt at hn
    split at hn
    · cases hn
      exact foldl_digits_eq_ofDigits fee.gas.data
    · simp at hn
  · cases hp : parseNonNegInt fee.gas with
    | none =>
      simp [signAndBroadcastEnvelope, OfflineSigner.getAccounts, hfind, hacct, hcid, hp]
    | some g =>
      rw [sab_direct_eq E accounts sd env st addr msgs fee memo sacc acct cid s1 b g _
        hfind hacct hcid hp rfl]
      simp

/-- C3: For every operation kind in the fee table constructed at
client-construction time, the gas limit equals the caller-supplied
override for that kind when one is supplied and the built-in default
otherwise; the fee amount equals ceiling(gas limit × gas price) in the gas
price's denomination as an integer coin amount; and supplying an override
for one kind leaves every other kind's computed fee unchanged. -/
theorem clientFees_table_correct (options : SigningCyberClientOptions)
    (ov : FeeKind → Option Nat) (k : FeeKind)
    (hov : options.gasLimits = some ov) :
    (clientFees options k).gas = toString ((ov k).getD (defaultGasLimits k)) ∧
    (clientFees options k).amount =
      [{ denom := (options.gasPrice.getD defaultGasPrice).denom
         amount := toString
           ⌈(((ov k).getD (defaultGasLimits k) : ℚ))
             * (options.gasPrice.getD defaultGasPrice).amount⌉ }] ∧
    (∀ options' : SigningCyberClientOptions, options'.gasLimits = none →
      (clientFees options' k).gas = toString (defaultGasLimits k)) ∧
    (∀ (g : Nat) (k' : FeeKind), k' ≠ k →
      clientFees { options with gasLimits := some (Function.update ov k (some g)) } k'
        = clientFees options k') := by
  refine ⟨?_, ?_, ?_, ?_⟩
  · simp [clientFees, buildFeeTable, calculateFee, hov]
  · simp [clientFees, buildFeeTable, calculateFee, hov]
  · intro options' hnone
    simp [clientFees, buildFeeTable, calculateFee, hnone]
  · intro g k' hk
    simp [clientFees, buildFeeTable, hov, Function.update_apply, hk]

/-- C8: For both signing modes, two sign-document constructions from
identical inputs — the same signer pubkey (determined by the signer
address), message list, fee, memo, chain id, account number and sequence
(and gas limit, itself a function of the fee) — yield identical sign
documents: sign-doc construction is a deterministic function of those
inputs. -/
theorem signDoc_deterministic (E : Encoders) (pk pk' : Bytes)
    (msgs msgs' : List EncodeObject) (fee fee' : StdFee) (memo memo' cid cid' : String)
    (an an' sq sq' gl gl' : Nat)
    (hpk : pk = pk') (hm : msgs = msgs') (hf : fee = fee') (hme : memo = memo')
    (hc : cid = cid') (ha : an = an') (hs : sq = sq') (hg : gl = gl') :
    directSignDocOf E pk msgs fee memo cid an sq gl
      = directSignDocOf E pk' msgs' fee' memo' cid' an' sq' gl' ∧
    aminoSignDocOf E msgs fee memo cid an sq
      = aminoSignDocOf E msgs' fee' memo' cid' an' sq' := by
  subst_vars
  exact ⟨rfl, rfl⟩

/-- C4: For every address whose auth query fails with an RPC NotFound
error, `getAccount` returns the account-not-found signal (`none`) rather
than propagating a raw transport exception, and a `signAndBroadcast` for
that address fails with the account-not-found error; every other query
failure is propagated unchanged; for an existing account, the
accountNumber and sequence used to build the sign document are the literal
values returned by the query layer in that same call. -/
theorem getAccount_notFound_handling (env : ChainEnv) (addr : String) :
    (∀ e, env.authAccount addr = .error e → icontains e notFoundPattern = true →
      getAccount env addr = .ok none) ∧
    (∀ e, env.authAccount addr = .error e → icontains e notFoundPattern = false →
      getAccount env addr = .error e) ∧
    (∀ (E : Encoders) (signer : OfflineSigner) (st : ClientState)
      (msgs : List EncodeObject) (fee : StdFee) (memo : String) (sacc : SignerAccount),
      signer.getAccounts.find? (fun account => account.address == addr) = some sacc →
      getAccount env addr = .ok none →
      (signAndBroadcastEnvelope E signer env st addr msgs fee memo).2
        = .error .accountNotFound) ∧
    (∀ acct, env.authAccount addr = .ok (some acct) →
      getAccount env addr = .ok (some acct)) ∧
    (∀ (E : Encoders) (accounts : List SignerAccount)
      (sd : String → SignDoc → DirectSignResponse) (st : ClientState)
      (msgs : List EncodeObject) (fee : StdFee) (memo : String) (sacc : SignerAccount)
      (acct : Account) (cid : String) (s1 : ClientState) (b : Bool) (gasLimit : Nat),
      accounts.find? (fun account => account.address == addr) = some sacc →
      env.authAccount addr = .ok (some acct) →
      getChainId env st = .ok (cid, s1, b) →
      parseNonNegInt fee.gas = some gasLimit →
      (signAndBroadcastEnvelope E (.direct accounts sd) env st addr msgs fee memo).2
        = .ok { bodyBytes := (sd addr (directSignDocOf E (E.encodePubkey sacc.pubkey) msgs
                  fee memo cid acct.accountNumber acct.sequence gasLimit)).signed.bodyBytes
                authInfoBytes := (sd addr (directSignDocOf E (E.encodePubkey sacc.pubkey)
                  msgs fee memo cid acct.accountNumber acct.sequence
                  gasLimit)).signed.authInfoBytes
                signatures := [E.fromBase64 (sd addr (directSignDocOf E
                  (E.encodePubkey sacc.pubkey) msgs fee memo cid acct.accountNumber
                  acct.sequence gasLimit)).signature] }) := by
  refine ⟨?_, ?_, ?_, ?_, ?_⟩
  · intro e he hic
    simp [getAccount, he, hic]
  · intro e he hic
    simp [getAccount, he, hic]
  · intro E signer st msgs fee memo sacc hfind hnone
    cases signer with
    | direct accounts sdf =>
      simp only [OfflineSigner.getAccounts] at hfind
      simp [signAndBroadcastEnvelope, OfflineSigner.getAccounts, hfind, hnone]
    | amino accounts saf =>
      simp only [OfflineSigner.getAccounts] at hfind
      simp [signAndBroadcastEnvelope, OfflineSigner.getAccounts, hfind, hnone]
  · intro acct hraw
    simp [getAccount, hraw]
  · intro E accounts sd st msgs fee memo sacc acct cid s1 b gasLimit hfind hraw hcid hgas
    have hacct : getAccount env addr = .ok (some acct) := by simp [getAccount, hraw]
    rw [sab_direct_eq E accounts sd env st addr msgs fee memo sacc acct cid s1 b gasLimit _
      hfind hacct hcid hgas rfl]

/-- C7: The chain-id cache is write-once-then-read-only: `getChainId`
fetches the chain id from the node at most once per client — after the
first successful fetch, every subsequent call returns the same cached
non-empty string without a network fetch — and no operation of the client
(in particular no `signAndBroadcast` call, the only pipeline that touches
the cache-carrying state) ever changes the cached value. -/
theorem chainId_cache_write_once (env : ChainEnv) (st : ClientState) :
    (∀ c s1 fetched, st.chainId = none →
      getChainId env st = .ok (c, s1, fetched) →
      s1.chainId = some c ∧ c ≠ "" ∧ fetched = true) ∧
    (∀ c, st.chainId = some c → c ≠ "" → getChainId env st = .ok (c, st, false)) ∧
    (∀ (E : Encoders) (signer : OfflineSigner) (addr : String) (msgs : List EncodeObject)
      (fee : StdFee) (memo : String) (c : String), st.chainId = some c → c ≠ "" →
      (signAndBroadcastEnvelope E signer env st addr msgs fee memo).1 = st) := by
  refine ⟨?_, ?_, ?_⟩
  · intro c s1 fetched h hq
    rw [getChainId, h] at hq
    simp only [Option.getD_none, if_true] at hq
    split at hq
    · cases hq
    · split at hq
      · cases hq
      · next hne =>
        cases hq
        exact ⟨rfl, hne, rfl⟩
  · intro c h hne
    rw [getChainId, h]
    simp [hne]
  · intro E signer addr msgs fee memo c h hne
    have hcid : getChainId env st = .ok (c, st, false) := by
      rw [getChainId, h]; simp [hne]
    unfold signAndBroadcastEnvelope
    cases signer with
    | direct accounts sdf =>
      cases hf : (OfflineSigner.direct accounts sdf).getAccounts.find?
          (fun account => account.address == addr) with
      | none => rfl
      | some sacc =>
        simp only [hf]
        cases hga : getAccount env addr with
        | error e => rfl
        | ok oacct =>
          cases oacct with
          | none => rfl
          | some acct =>
            simp only [hcid]
            cases hp : parseNonNegInt fee.gas with
            | none => rfl
            | some g => rfl
    | amino accounts saf =>
      cases hf : (OfflineSigner.amino accounts saf).getAccounts.find?
          (fun account => account.address == addr) with
      | none => rfl
      | some sacc =>
        simp only [hf]
        cases hga : getAccount env addr with
        | error e => rfl
        | ok oacct =>
          cases oacct with
          | none => rfl
          | some acct =>
            simp only [hcid]
            cases hp : parseNonNegInt fee.gas with
            | none => rfl
            | some g =>
              cases hp1 : parseNonNegInt (saf addr (aminoSignDocOf E msgs fee memo c
                  acct.accountNumber acct.sequence)).signed.fee.gas with
              | none => rfl
              | some sg =>
                cases hp2 : parseNonNegInt (saf addr (aminoSignDocOf E msgs fee memo c
                    acct.accountNumber acct.sequence)).signed.sequence with
                | none => rfl
                | some ss => rfl

/-! ## Witnesses: the conditional theorems evaluated at concrete inputs -/

/-- Witness for C1 at concrete inputs. -/
theorem signAndBroadcast_direct_mode_witness :
    (accsW.find? (fun account => account.address == "addr1") = some saccW) ∧
    (getAccount envW "addr1" = .ok (some acctW)) ∧
    (getChainId envW ⟨none⟩ = .ok ("test-1", ⟨some "test-1"⟩, true)) ∧
    (parseNonNegInt feeW.gas = some 128000) ∧
    (isOfflineDirectSigner (.direct accsW sdW) = true ∧
      signAndBroadcastEnvelope encW (.direct accsW sdW) envW ⟨none⟩ "addr1" [] feeW ""
        = (⟨some "test-1"⟩, .ok { bodyBytes := respW.signed.bodyBytes
                                  authInfoBytes := respW.signed.authInfoBytes
                                  signatures := [encW.fromBase64 respW.signature] })) :=
  ⟨rfl, rfl, rfl, rfl,
    signAndBroadcast_direct_mode encW accsW sdW envW ⟨none⟩ "addr1" [] feeW "" saccW acctW
      "test-1" ⟨some "test-1"⟩ true 128000 respW rfl rfl rfl rfl rfl⟩

/-- Witness for C2 at concrete inputs. -/
theorem signAndBroadcast_amino_mode_witness :
    (accsW.find? (fun account => account.address == "addr1") = some saccW) ∧
    (parseNonNegInt resp2W.signed.fee.gas = some 128000) ∧
    (parseNonNegInt resp2W.signed.sequence = some 3) ∧
    (isOfflineDirectSigner (.amino accsW saW) = false ∧
      SignMode.legacyAminoJson ≠ SignMode.direct ∧
      signAndBroadcastEnvelope encW (.amino accsW saW) envW ⟨none⟩ "addr1" [] feeW ""
        = (⟨some "test-1"⟩, .ok
            { bodyBytes := encW.encodeTxBody (resp2W.signed.msgs.map encW.fromAmino)
                resp2W.signed.memo
              authInfoBytes := encW.makeAuthInfoBytes [encW.encodePubkey saccW.pubkey]
                resp2W.signed.fee.amount 128000 3 .legacyAminoJson
              signatures := [encW.fromBase64 resp2W.signature] })) :=
  ⟨rfl, rfl, rfl,
    signAndBroadcast_amino_mode encW accsW saW envW ⟨none⟩ "addr1" [] feeW "" saccW acctW
      "test-1" ⟨some "test-1"⟩ true 128000 128000 3 resp2W rfl rfl rfl rfl rfl rfl rfl⟩

/-- Witness for C3 at concrete inputs: `convert` overridden to 64000,
`send` unaffected. -/
theorem clientFees_table_correct_witness :
    (optionsW.gasLimits = some ovW) ∧
    (clientFees optionsW .convert).gas = toString ((ovW .convert).getD
      (defaultGasLimits .convert)) ∧
    clientFees { optionsW with gasLimits := some (Function.update ovW .convert (some 999)) }
        .send
      = clientFees optionsW .send :=
  ⟨rfl, (clientFees_table_correct optionsW ovW .convert rfl).1,
    (clientFees_table_correct optionsW ovW .convert rfl).2.2.2 999 .send (by decide)⟩

/-- Witness for C4 at concrete inputs: a NotFound query error yields
`none` and the account-not-found pipeline error; a plain transport error
propagates unchanged. -/
theorem getAccount_notFound_handling_witness :
    (envW.authAccount "addr2" = .error "rpc error: code = NotFound, account does not exist") ∧
    (icontains "rpc error: code = NotFound, account does not exist" notFoundPattern = true) ∧
    (getAccount envW "addr2" = .ok none) ∧
    (icontains "connection refused" notFoundPattern = false) ∧
    (getAccount envFailW "addr1" = .error "connection refused") ∧
    ((signAndBroadcastEnvelope encW (.direct accsW2 sdW) envW ⟨none⟩ "addr2" [] feeW "").2
      = .error .accountNotFound) :=
  ⟨rfl, rfl,
    (getAccount_notFound_handling envW "addr2").1
      "rpc error: code = NotFound, account does not exist" rfl rfl,
    rfl,
    (getAccount_notFound_handling envFailW "addr1").2.1 "connection refused" rfl rfl,
    (getAccount_notFound_handling envW "addr2").2.2.1 encW (.direct accsW2 sdW) ⟨none⟩ []
      feeW "" ⟨"addr2", pkW⟩ rfl rfl⟩

/-- Witness for C6 at concrete inputs: the malformed gas string `12x`
makes the call fail with the invalid-fee error, and the valid literal
`128000` parses to its base-10 value. -/
theorem gasLimit_parse_correct_witness :
    ((signAndBroadcastEnvelope encW (.direct accsW sdW) envW ⟨none⟩ "addr1" [] badFeeW "").2
      = .error .invalidFee) ∧
    (128000 : Nat) = Nat.ofDigits 10 ((feeW.gas.data.map fun c => c.toNat - 48)).reverse :=
  ⟨((gasLimit_parse_correct encW accsW sdW envW ⟨none⟩ "addr1" [] badFeeW "" saccW acctW
      "test-1" ⟨some "test-1"⟩ true rfl rfl rfl).2.2).mpr rfl,
    (gasLimit_parse_correct encW accsW sdW envW ⟨none⟩ "addr1" [] feeW "" saccW acctW
      "test-1" ⟨some "test-1"⟩ true rfl rfl rfl).2.1 128000 rfl⟩

/-- Witness for C7 at concrete inputs: a set cache is returned without a
fetch and survives a full pipeline call unchanged. -/
theorem chainId_cache_write_once_witness :
    (getChainId envW ⟨some "test-1"⟩ = .ok ("test-1", ⟨some "test-1"⟩, false)) ∧
    ((signAndBroadcastEnvelope encW (.direct accsW sdW) envW ⟨some "test-1"⟩ "addr1" []
        feeW "").1 = ⟨some "test-1"⟩) :=
  ⟨(chainId_cache_write_once envW ⟨some "test-1"⟩).2.1 "test-1" rfl (by decide),
    (chainId_cache_write_once envW ⟨some "test-1"⟩).2.2 encW (.direct accsW sdW) "addr1" []
      feeW "" "test-1" rfl (by decide)⟩

/-- Witness for C8 at concrete inputs. -/
theorem signDoc_deterministic_witness :
    directSignDocOf encW pkW [] feeW "" "test-1" 7 3 128000
      = directSignDocOf encW pkW [] feeW "" "test-1" 7 3 128000 ∧
    aminoSignDocOf encW [] feeW "" "test-1" 7 3 = aminoSignDocOf encW [] feeW "" "test-1" 7 3 :=
  signDoc_deterministic encW pkW pkW [] [] feeW feeW "" "" "test-1" "test-1" 7 7 3 3
    128000 128000 rfl rfl rfl rfl rfl rfl rfl rfl

end CyberJs
